import Mathlib

/-!
Verification of the camera-tracking bake engine and export pipeline of the
`tdspring26` exercises repository.

The embedding models the two central source files:
  * `exercises/week2/week2_ex2_camera_follow.py`  (namespace `Week2`)
  * `exercises/project2/project2_ex1_fbx_tiktok_renderer.py` (namespace `Project2`)

Positions and transforms use exact rationals in place of Python floats; the
Blender host (`bpy`, `mathutils`) is modelled only through the narrow
interfaces the scripts use: frame-evaluated world matrices, pose-bone tables,
keyframe insertion, and the render settings record.
-/

/-- A 3-component vector over ℚ, modelling `mathutils.Vector` /
position triples in the scripts. -/
structure Vec3 where
  x : ℚ
  y : ℚ
  z : ℚ
deriving DecidableEq, Repr

def Vec3.add (a b : Vec3) : Vec3 := ⟨a.x + b.x, a.y + b.y, a.z + b.z⟩

def Vec3.dot (a b : Vec3) : ℚ := a.x * b.x + a.y * b.y + a.z * b.z

/-- An affine transform (3×3 linear part stored as rows, plus translation),
modelling a Blender 4×4 world/pose matrix as the scripts use it. -/
structure Affine where
  r0 : Vec3
  r1 : Vec3
  r2 : Vec3
  t : Vec3
deriving DecidableEq, Repr

/-- Apply the linear part of an affine transform to a vector. -/
def Affine.applyLin (a : Affine) (v : Vec3) : Vec3 :=
  ⟨a.r0.dot v, a.r1.dot v, a.r2.dot v⟩

/-- Composition of affine transforms (`A @ B` on Blender matrices);
only its translation component is read by the scripts. -/
def Affine.comp (a b : Affine) : Affine :=
  { r0 := ⟨a.r0.dot ⟨b.r0.x, b.r1.x, b.r2.x⟩,
           a.r0.dot ⟨b.r0.y, b.r1.y, b.r2.y⟩,
           a.r0.dot ⟨b.r0.z, b.r1.z, b.r2.z⟩⟩
    r1 := ⟨a.r1.dot ⟨b.r0.x, b.r1.x, b.r2.x⟩,
           a.r1.dot ⟨b.r0.y, b.r1.y, b.r2.y⟩,
           a.r1.dot ⟨b.r0.z, b.r1.z, b.r2.z⟩⟩
    r2 := ⟨a.r2.dot ⟨b.r0.x, b.r1.x, b.r2.x⟩,
           a.r2.dot ⟨b.r0.y, b.r1.y, b.r2.y⟩,
           a.r2.dot ⟨b.r0.z, b.r1.z, b.r2.z⟩⟩
    t := (a.applyLin b.t).add a.t }

/-- The identity affine transform. -/
def Affine.id : Affine :=
  { r0 := ⟨1, 0, 0⟩, r1 := ⟨0, 1, 0⟩, r2 := ⟨0, 0, 1⟩, t := ⟨0, 0, 0⟩ }

/-- A scene object as the scripts observe it: its `type` string, its
frame-evaluated world matrix (the value `obj.matrix_world` has after
`scene.frame_set(frame)`), and its pose-bone table mapping bone names to
frame-evaluated pose matrices (`pose.bones[name].matrix`). -/
structure SceneObject where
  objType : String
  matrixWorld : Int → Affine
  poseBones : List (String × (Int → Affine))

/-- Bone lookup, modelling both `pose.bones.get(name)` and
`name in pose.bones` on the same table. -/
def SceneObject.findBone (o : SceneObject) (name : String) :
    Option (Int → Affine) :=
  (o.poseBones.find? (fun p => p.1 = name)).map Prod.snd

/-- World-space translation of the object itself at a frame
(`obj.matrix_world.translation` after `frame_set`). -/
def SceneObject.worldTranslation (o : SceneObject) (frame : Int) : Vec3 :=
  (o.matrixWorld frame).t

namespace Week2

/-- `TargetAdapter` from week2_ex2_camera_follow.py: wraps an object and an
optional bone name. -/
structure TargetAdapter where
  obj : SceneObject
  bone_name : Option String

/-- Python truthiness of the `bone_name` field: `None` and `""` are falsy. -/
def optTruthy : Option String → Bool
  | none => false
  | some s => s ≠ ""

/-- `TargetAdapter.world_location` evaluated at a frame (the caller has set
the scene to `frame` first). Source:

    if self.obj.type == "ARMATURE" and self.bone_name:
        bone = self.obj.pose.bones.get(self.bone_name)
        if bone:
            matrix = self.obj.matrix_world @ bone.matrix
            return matrix.translation
    return self.obj.matrix_world.translation
-/
def TargetAdapter.world_location (a : TargetAdapter) (frame : Int) : Vec3 :=
  if a.obj.objType = "ARMATURE" ∧ optTruthy a.bone_name then
    match a.bone_name.bind (fun bn => a.obj.findBone bn) with
    | some boneM => ((a.obj.matrixWorld frame).comp (boneM frame)).t
    | none => (a.obj.matrixWorld frame).t
  else (a.obj.matrixWorld frame).t

end Week2

namespace Project2

/-- `get_target_world_location` from project2_ex1_fbx_tiktok_renderer.py.
Source:

    if bone_name in armature.pose.bones:
        bone = armature.pose.bones[bone_name]
        matrix = armature.matrix_world @ bone.matrix
        return tuple(matrix.translation)
    return tuple(armature.matrix_world.translation)
-/
def get_target_world_location (armature : SceneObject) (bone_name : String)
    (frame : Int) : Vec3 :=
  match armature.findBone bone_name with
  | some boneM => ((armature.matrixWorld frame).comp (boneM frame)).t
  | none => (armature.matrixWorld frame).t

end Project2

/-- Number of elements of Python `range(start, stop, step)` for `step > 0`:
`max 0 (ceil ((stop - start) / step))`, written with floor division. -/
def pyRangeLen (start stop step : Int) : Nat :=
  ((stop - start + step - 1) / step).toNat

/-- Python `range(start, stop, step)` for positive `step`, as the list
`start, start + step, ...` of `pyRangeLen` elements. -/
def pyRange (start stop step : Int) : List Int :=
  (List.range (pyRangeLen start stop step)).map
    (fun i : Nat => start + step * (i : Int))

/-- The frames sampled by the bake loops, all of which iterate
`range(frame_start, frame_end + 1, step)`. -/
def sampledFrames (frame_start frame_end step : Int) : List Int :=
  pyRange frame_start (frame_end + 1) step

/-- One baked camera keyframe: the camera location written at the frame, and
the direction vector handed to `mathutils`' `to_track_quat("-Z", "Y")`
(whose Euler form becomes `rotation_euler`).  Both scripts insert the
`location` and `rotation_euler` keyframes at the same frames, so the two
f-curves are modelled as one keyed record. -/
structure CameraKey where
  loc : Vec3
  dir : Vec3
deriving DecidableEq, Repr

/-- A camera's animation track: `(frame, key)` pairs kept sorted by frame,
as Blender keeps f-curve keyframe lists. -/
abbrev Track : Type := List (Int × CameraKey)

/-- The frames of a track, in track order. -/
def trackFrames (t : Track) : List Int := t.map Prod.fst

/-- `camera.keyframe_insert(..., frame=f)`: replace the key at frame `f`
when present, otherwise insert it in frame order. -/
def insertKey (track : Track) (f : Int) (k : CameraKey) : Track :=
  match track with
  | [] => [(f, k)]
  | (g, k0) :: rest =>
    if f < g then (f, k) :: (g, k0) :: rest
    else if f = g then (f, k) :: rest
    else (g, k0) :: insertKey rest f k

/-- The bake loops: fold keyframe insertion over the sampled frames,
writing the pose computed for each frame. -/
def bakeFold (poseAt : Int → CameraKey) (frames : List Int) (t : Track) : Track :=
  frames.foldl (fun acc f => insertKey acc f (poseAt f)) t

namespace Week2

def FRAME_START : Int := 1
def FRAME_END : Int := 180
def STEP : Int := 10
def Y_OFFSET : ℚ := -3
def Z_OFFSET : ℚ := 3

/-- The camera pose week2's `bake_camera_animation` computes at one frame:

    target_loc = target.world_location()
    camera.location = Vector((target_loc.x, target_loc.y + Y_OFFSET,
                              max(target_loc.z + Z_OFFSET, 0.5)))
    point_camera(camera, target_loc)   -- direction = target - camera.location
-/
def bakePose (target : TargetAdapter) (frame : Int) : CameraKey :=
  let target_loc := target.world_location frame
  let cam : Vec3 := ⟨target_loc.x, target_loc.y + Y_OFFSET,
    max (target_loc.z + Z_OFFSET) (1/2)⟩
  { loc := cam
    dir := ⟨target_loc.x - cam.x, target_loc.y - cam.y, target_loc.z - cam.z⟩ }

/-- `bake_camera_animation`: iterates `range(FRAME_START, FRAME_END + 1, STEP)`
inserting keyframes on the camera's existing track.  The source performs no
clearing of pre-existing animation data. -/
def bake_camera_animation (camera : Track) (target : TargetAdapter) : Track :=
  bakeFold (bakePose target) (sampledFrames FRAME_START FRAME_END STEP) camera

end Week2

namespace Project2

def FRAME_STEP : Int := 5
def CAMERA_DISTANCE : ℚ := 5/2
def CAMERA_HEIGHT_OFFSET : ℚ := 3/2

/-- The target location read inside project2's bake loop:

    if target.type == "ARMATURE" and bone_name:
        target_loc = get_target_world_location(target, bone_name)
    else:
        target_loc = tuple(target.matrix_world.translation)
-/
def loopTargetLoc (target : SceneObject) (bone_name : Option String)
    (frame : Int) : Vec3 :=
  if target.objType = "ARMATURE" ∧ Week2.optTruthy bone_name then
    match bone_name with
    | some bn => get_target_world_location target bn frame
    | none => target.worldTranslation frame
  else target.worldTranslation frame

/-- The camera pose project2's `setup_camera_tracking` computes at one frame:

    camera.location = (target_loc[0], target_loc[1] - CAMERA_DISTANCE,
                       target_loc[2] + CAMERA_HEIGHT_OFFSET)
    direction = Vector((target_loc[0] - camera.location[0], ...))
-/
def bakePose (target : SceneObject) (bone_name : Option String)
    (frame : Int) : CameraKey :=
  let target_loc := loopTargetLoc target bone_name frame
  let cam : Vec3 := ⟨target_loc.x, target_loc.y - CAMERA_DISTANCE,
    target_loc.z + CAMERA_HEIGHT_OFFSET⟩
  { loc := cam
    dir := ⟨target_loc.x - cam.x, target_loc.y - cam.y, target_loc.z - cam.z⟩ }

/-- `setup_camera_tracking` with the loop step generalized to a parameter
(the source fixes it to the module constant `FRAME_STEP = 5`; the spec's
`bake` contract exposes it).  Clears any existing animation data first:

    if camera.animation_data:
        camera.animation_data_clear()
    ...
    for frame in range(frame_start, frame_end + 1, FRAME_STEP):
        ... keyframe_insert ...
-/
def setup_camera_tracking_gen (camera : Track) (target : SceneObject)
    (bone_name : Option String) (frame_start frame_end step : Int) : Track :=
  let cleared : Track := if camera ≠ [] then [] else camera
  bakeFold (bakePose target bone_name) (sampledFrames frame_start frame_end step)
    cleared

/-- `setup_camera_tracking` exactly as in the source, with `step = FRAME_STEP`. -/
def setup_camera_tracking (camera : Track) (target : SceneObject)
    (bone_name : Option String) (frame_start frame_end : Int) : Track :=
  setup_camera_tracking_gen camera target bone_name frame_start frame_end FRAME_STEP

/-- The keyframe count reported by the source's completion message:
`(frame_end - frame_start) // FRAME_STEP + 1` (Python floor division). -/
def reportedBakeCount (frame_start frame_end : Int) : Int :=
  (frame_end - frame_start) / FRAME_STEP + 1

end Project2

/-- Blender image output settings touched by `render_to_mp4`. -/
structure ImageSettings where
  media_type : String
  file_format : String
deriving DecidableEq, Repr

/-- Blender FFmpeg settings touched by `render_to_mp4`. -/
structure FFmpegSettings where
  format : String
  codec : String
  constant_rate_factor : String
  ffmpeg_preset : String
  video_bitrate : Int
  gopsize : Int
  audio_codec : String
  audio_bitrate : Int
deriving DecidableEq, Repr

/-- `scene.render` as `render_to_mp4` reads and writes it. -/
structure RenderSettings where
  image_settings : ImageSettings
  ffmpeg : FFmpegSettings
  fps : Int
  fps_base : ℚ
  filepath : String
  resolution_x : Int
  resolution_y : Int
deriving DecidableEq, Repr

/-- The slice of `bpy.context.scene` that `render_to_mp4` uses: the render
settings plus the scene frame range. -/
structure Scene where
  render : RenderSettings
  frame_start : Int
  frame_end : Int
deriving DecidableEq, Repr

/-- Outcome of the host's `bpy.ops.render.render(animation=True)` call plus
the state of the filesystem at the output path afterwards: either the encode
raises, or it completes and the output file exists (or not) with a size. -/
inductive EncodeOutcome where
  | ok (fileExists : Bool) (fileSize : Nat)
  | raises
deriving DecidableEq, Repr

namespace Project2

/-- The quality preset table of `render_to_mp4`
(`{"high": {"bitrate": 8000, "gop": 12}, ...}`), as `(bitrate, gop)`. -/
def quality_settings (q : String) : Option (Int × Int) :=
  if q = "high" then some (8000, 12)
  else if q = "medium" then some (4000, 15)
  else if q = "low" then some (2000, 18)
  else none

/-- What a successful `render_to_mp4` call returns and reports. -/
structure ExportReport where
  returnedPath : String
  fileFound : Bool
  shownFileSize : Option Nat
  shownResolution : Option (Int × Int)
  shownFps : Option Int
  shownDuration : Option ℚ
deriving DecidableEq, Repr

/-- `render_to_mp4(output_path, fps, quality, frame_start, frame_end)`.

`resolvePath` models `Path.resolve()` (host filesystem); `outcome` models the
result of the encode step.  Returns the `typer.Exit(code=1)` error or the
report, paired with the scene state after the `finally` block ran.  Faithful
to the source's order: defaults are read from the scene first, the unknown
quality is coerced to "medium" with a warning, five fields are snapshotted
(`media_type`, `file_format`, `filepath`, `frame_start`, `frame_end`), the
try block overrides the settings and encodes, the except block turns any
encode error into `Exit(1)`, and the finally block restores exactly the five
snapshotted fields. -/
def render_to_mp4 (scene : Scene) (resolvePath : String → String)
    (outcome : EncodeOutcome) (output_path : String) (fps : Int)
    (quality : String) (frame_start0 frame_end0 : Option Int) :
    Except Nat ExportReport × Scene :=
  let frame_start := frame_start0.getD scene.frame_start
  let frame_end := frame_end0.getD scene.frame_end
  let quality := if (quality_settings quality).isSome then quality else "medium"
  let settings := (quality_settings quality).getD (0, 0)
  let original_media_type := scene.render.image_settings.media_type
  let original_format := scene.render.image_settings.file_format
  let original_filepath := scene.render.filepath
  let original_start := scene.frame_start
  let original_end := scene.frame_end
  let resolved := resolvePath output_path
  let sceneTry : Scene :=
    { render :=
        { image_settings := { media_type := "VIDEO", file_format := "FFMPEG" }
          ffmpeg :=
            { format := "MPEG4"
              codec := "H264"
              constant_rate_factor :=
                if quality = "high" then "HIGH"
                else if quality = "medium" then "MEDIUM" else "LOW"
              ffmpeg_preset := "GOOD"
              video_bitrate := settings.1
              gopsize := settings.2
              audio_codec := "AAC"
              audio_bitrate := 192 }
          fps := fps
          fps_base := 1
          filepath := resolved
          resolution_x := scene.render.resolution_x
          resolution_y := scene.render.resolution_y }
      frame_start := frame_start
      frame_end := frame_end }
  let restore : Scene → Scene := fun s =>
    { render :=
        { s.render with
          image_settings :=
            { media_type := original_media_type, file_format := original_format }
          filepath := original_filepath }
      frame_start := original_start
      frame_end := original_end }
  match outcome with
  | EncodeOutcome.raises => (Except.error 1, restore sceneTry)
  | EncodeOutcome.ok fileExists fileSize =>
    let report : ExportReport :=
      { returnedPath := resolved
        fileFound := fileExists
        shownFileSize := if fileExists then some fileSize else none
        shownResolution :=
          if fileExists then
            some (sceneTry.render.resolution_x, sceneTry.render.resolution_y)
          else none
        shownFps := if fileExists then some fps else none
        shownDuration :=
          if fileExists then
            some (((frame_end : ℚ) - (frame_start : ℚ) + 1) / (fps : ℚ))
          else none }
    (Except.ok report, restore sceneTry)

end Project2

/-! ## Look-at solver (over ℝ)

The scripts compute the camera direction themselves and delegate the
orientation to `mathutils`' `Vector.to_track_quat("-Z", "Y")`, host-library
code that is not part of this repository.  That one call is modelled from
the spec below; the direction computation is translated from the source. -/

/-- A 3-component vector over ℝ, for the look-at geometry. -/
structure Vec3R where
  x : ℝ
  y : ℝ
  z : ℝ

def Vec3R.sub (a b : Vec3R) : Vec3R := ⟨a.x - b.x, a.y - b.y, a.z - b.z⟩

def Vec3R.smul (c : ℝ) (v : Vec3R) : Vec3R := ⟨c * v.x, c * v.y, c * v.z⟩

def Vec3R.dotR (a b : Vec3R) : ℝ := a.x * b.x + a.y * b.y + a.z * b.z

def Vec3R.cross (a b : Vec3R) : Vec3R :=
  ⟨a.y * b.z - a.z * b.y, a.z * b.x - a.x * b.z, a.x * b.y - a.y * b.x⟩

noncomputable def Vec3R.norm (v : Vec3R) : ℝ :=
  Real.sqrt (v.x ^ 2 + v.y ^ 2 + v.z ^ 2)

noncomputable def Vec3R.normalize (v : Vec3R) : Vec3R :=
  Vec3R.smul (v.norm)⁻¹ v

/-- A rotation given by the rotated frame's axes in world space: column `i`
is the image of the `i`-th standard basis vector. -/
structure RotFrame where
  colX : Vec3R
  colY : Vec3R
  colZ : Vec3R

/-- The world-space direction of the camera's local forward axis `-Z`
under a rotation frame: the image of `(0, 0, -1)`. -/
def RotFrame.forward (o : RotFrame) : Vec3R := Vec3R.smul (-1) o.colZ

/-- Modelled from the spec: `mathutils.Vector.to_track_quat("-Z", "Y")` is
Blender host-library code, not part of this repository's sources.  Per the
spec (§4.2: "Output orientation aims a fixed local forward axis of the
camera at the target, with a fixed local up axis used to resolve roll
ambiguity (standard look-at convention: forward = -Z, up = +Y)"), the
returned rotation carries the local `-Z` axis onto the normalized input
direction, with the local `+Y` axis chosen in the vertical plane of the
direction (the standard look-at frame; an arbitrary fixed horizontal axis
is used when the direction is vertical). -/
noncomputable def to_track_quat_negZ_Y (d : Vec3R) : RotFrame :=
  let f := d.normalize
  let worldUp : Vec3R := ⟨0, 0, 1⟩
  let r := if f.x = 0 ∧ f.y = 0 then (⟨1, 0, 0⟩ : Vec3R)
           else (f.cross worldUp).normalize
  { colX := r
    colY := (Vec3R.smul (-1) f).cross r
    colZ := Vec3R.smul (-1) f }

namespace Week2

/-- `point_camera` from week2_ex2_camera_follow.py:

    direction = target - camera.location
    camera.rotation_euler = direction.to_track_quat("-Z", "Y").to_euler()

(the Euler conversion is a change of representation and is elided). -/
noncomputable def point_camera (camera_location target : Vec3R) : RotFrame :=
  to_track_quat_negZ_Y (target.sub camera_location)

end Week2


/-! ## Supporting lemmas: the sampled-frame list -/

lemma sampledFrames_eq_map (s e st : Int) :
    sampledFrames s e st
      = (List.range (pyRangeLen s (e + 1) st)).map
          (fun i : Nat => s + st * (i : Int)) := rfl

lemma pyRangeLen_bake (s e st : Int) (h1 : s ≤ e) (h2 : 1 ≤ st) :
    pyRangeLen s (e + 1) st = ((e - s) / st).toNat + 1 := by
  unfold pyRangeLen
  have h3 : e + 1 - s + st - 1 = (e - s) + 1 * st := by ring
  rw [h3, Int.add_mul_ediv_right _ _ (by omega : st ≠ 0)]
  have h4 : (0 : Int) ≤ (e - s) / st := Int.ediv_nonneg (by omega) (by omega)
  omega

lemma sampledFrames_length (s e st : Int) (h1 : s ≤ e) (h2 : 1 ≤ st) :
    (sampledFrames s e st).length = ((e - s) / st).toNat + 1 := by
  rw [sampledFrames_eq_map, List.length_map, List.length_range,
    pyRangeLen_bake s e st h1 h2]

lemma mem_sampledFrames_iff (s e st x : Int) (h1 : s ≤ e) (h2 : 1 ≤ st) :
    x ∈ sampledFrames s e st
      ↔ ∃ i : Nat, (i : Int) ≤ (e - s) / st ∧ x = s + st * i := by
  have h4 : (0 : Int) ≤ (e - s) / st := Int.ediv_nonneg (by omega) (by omega)
  rw [sampledFrames_eq_map, List.mem_map]
  constructor
  · rintro ⟨i, hi, rfl⟩
    rw [List.mem_range, pyRangeLen_bake s e st h1 h2] at hi
    exact ⟨i, by omega, rfl⟩
  · rintro ⟨i, hle, rfl⟩
    refine ⟨i, ?_, rfl⟩
    rw [List.mem_range, pyRangeLen_bake s e st h1 h2]
    omega

lemma sampledFrames_bounds (s e st x : Int) (h1 : s ≤ e) (h2 : 1 ≤ st)
    (hx : x ∈ sampledFrames s e st) :
    s ≤ x ∧ x ≤ s + st * ((e - s) / st) := by
  obtain ⟨i, hle, rfl⟩ := (mem_sampledFrames_iff s e st x h1 h2).mp hx
  constructor
  · have : (0 : Int) ≤ st * i := mul_nonneg (by omega) (by positivity)
    linarith
  · have : st * (i : Int) ≤ st * ((e - s) / st) :=
      mul_le_mul_of_nonneg_left hle (by omega)
    linarith

lemma lastSample_le_end (s e st : Int) (_h1 : s ≤ e) (h2 : 1 ≤ st) :
    s + st * ((e - s) / st) ≤ e := by
  have hmod : (0 : Int) ≤ (e - s) % st := Int.emod_nonneg _ (by omega)
  have hdm := Int.ediv_add_emod (e - s) st
  linarith

lemma lastSample_mem (s e st : Int) (h1 : s ≤ e) (h2 : 1 ≤ st) :
    s + st * ((e - s) / st) ∈ sampledFrames s e st := by
  have h4 : (0 : Int) ≤ (e - s) / st := Int.ediv_nonneg (by omega) (by omega)
  rw [mem_sampledFrames_iff s e st _ h1 h2]
  refine ⟨((e - s) / st).toNat, le_of_eq (Int.toNat_of_nonneg h4), ?_⟩
  rw [Int.toNat_of_nonneg h4]

lemma end_mem_sampledFrames_iff (s e st : Int) (h1 : s ≤ e) (h2 : 1 ≤ st) :
    e ∈ sampledFrames s e st ↔ (e - s) % st = 0 := by
  rw [mem_sampledFrames_iff s e st e h1 h2]
  constructor
  · rintro ⟨i, hle, he⟩
    have hi : e - s = st * i := by linarith
    rw [hi]
    exact Int.mul_emod_right st i
  · intro hmod
    have h4 : (0 : Int) ≤ (e - s) / st := Int.ediv_nonneg (by omega) (by omega)
    have hdm := Int.ediv_add_emod (e - s) st
    refine ⟨((e - s) / st).toNat, le_of_eq (Int.toNat_of_nonneg h4), ?_⟩
    rw [Int.toNat_of_nonneg h4]
    linarith

lemma sampledFrames_pairwise (s e st : Int) (h2 : 1 ≤ st) :
    (sampledFrames s e st).Pairwise (· < ·) := by
  rw [sampledFrames_eq_map, List.pairwise_map]
  refine List.Pairwise.imp ?_ (List.pairwise_lt_range _)
  intro a b hab
  have hab' : (a : Int) < b := by exact_mod_cast hab
  have := mul_lt_mul_of_pos_left hab' (by omega : (0 : Int) < st)
  linarith

/-! ## Supporting lemmas: keyframe insertion and the bake fold -/

/-- A track is frame-sorted (Blender's invariant for f-curve keys). -/
def TrackSorted (t : Track) : Prop :=
  t.Pairwise (fun p q => p.1 < q.1)

lemma insertKey_append (t : Track) (f : Int) (k : CameraKey)
    (h : ∀ p ∈ t, p.1 < f) : insertKey t f k = t ++ [(f, k)] := by
  induction t with
  | nil => rfl
  | cons hd tl ih =>
    obtain ⟨g, k0⟩ := hd
    have hg : g < f := h (g, k0) (List.mem_cons_self _ _)
    simp only [insertKey]
    rw [if_neg (by omega), if_neg (by omega)]
    rw [ih (fun p hp => h p (List.mem_cons_of_mem _ hp))]
    rfl

lemma mem_trackFrames_insertKey (t : Track) (f x : Int) (k : CameraKey)
    (hx : x ∈ trackFrames (insertKey t f k)) : x = f ∨ x ∈ trackFrames t := by
  induction t with
  | nil =>
    simp only [insertKey, trackFrames, List.map_cons, List.map_nil,
      List.mem_singleton] at hx
    exact Or.inl hx
  | cons hd tl ih =>
    obtain ⟨g, k0⟩ := hd
    simp only [insertKey] at hx
    by_cases h1 : f < g
    · rw [if_pos h1] at hx
      simp only [trackFrames, List.map_cons, List.mem_cons] at hx ⊢
      tauto
    · rw [if_neg h1] at hx
      by_cases h2 : f = g
      · rw [if_pos h2] at hx
        simp only [trackFrames, List.map_cons, List.mem_cons] at hx ⊢
        tauto
      · rw [if_neg h2] at hx
        simp only [trackFrames, List.map_cons, List.mem_cons] at hx ⊢
        rcases hx with h | h
        · tauto
        · rcases ih h with h' | h' <;> tauto

lemma trackFrames_insertKey_of_mem (t : Track) (f : Int) (k : CameraKey)
    (hs : TrackSorted t) (hf : f ∈ trackFrames t) :
    trackFrames (insertKey t f k) = trackFrames t := by
  induction t with
  | nil => simp [trackFrames] at hf
  | cons hd tl ih =>
    obtain ⟨g, k0⟩ := hd
    simp only [trackFrames, List.map_cons, List.mem_cons] at hf
    have hhead : ∀ q ∈ tl, g < q.1 := by
      intro q hq
      exact (List.pairwise_cons.mp hs).1 q hq
    by_cases h2 : f = g
    · simp only [insertKey, if_neg (by omega : ¬ f < g), if_pos h2,
        trackFrames, List.map_cons]
      simp [h2]
    · have hfin : f ∈ trackFrames tl := by
        rcases hf with h | h
        · exact absurd h h2
        · exact h
      have hgf : g < f := by
        obtain ⟨q, hq, hq2⟩ := List.mem_map.mp hfin
        have := hhead q hq
        omega
      simp only [insertKey, if_neg (by omega : ¬ f < g), if_neg h2,
        trackFrames, List.map_cons]
      rw [show List.map Prod.fst (insertKey tl f k) = trackFrames (insertKey tl f k) from rfl,
        ih (List.pairwise_cons.mp hs).2 hfin]
      rfl

lemma insertKey_sorted (t : Track) (f : Int) (k : CameraKey)
    (hs : TrackSorted t) : TrackSorted (insertKey t f k) := by
  induction t with
  | nil => simp [insertKey, TrackSorted]
  | cons hd tl ih =>
    obtain ⟨g, k0⟩ := hd
    obtain ⟨hhead, htl⟩ := List.pairwise_cons.mp hs
    by_cases h1 : f < g
    · simp only [insertKey, if_pos h1]
      refine List.pairwise_cons.mpr ⟨?_, hs⟩
      intro q hq
      rcases List.mem_cons.mp hq with h | h
      · rw [h]
        exact h1
      · have := hhead q h
        omega
    · by_cases h2 : f = g
      · simp only [insertKey, if_neg h1, if_pos h2]
        refine List.pairwise_cons.mpr ⟨?_, htl⟩
        intro q hq
        have := hhead q hq
        omega
      · simp only [insertKey, if_neg h1, if_neg h2]
        refine List.pairwise_cons.mpr ⟨?_, ih htl⟩
        intro q hq
        have hq2 : q.1 = f ∨ q.1 ∈ trackFrames tl :=
          mem_trackFrames_insertKey tl f q.1 k
            (List.mem_map.mpr ⟨q, hq, rfl⟩)
        rcases hq2 with h | h
        · omega
        · obtain ⟨p, hp, hp2⟩ := List.mem_map.mp h
          have := hhead p hp
          omega

lemma bakeFold_append (poseAt : Int → CameraKey) (frames : List Int) :
    ∀ t : Track, frames.Pairwise (· < ·) →
    (∀ p ∈ t, ∀ f ∈ frames, p.1 < f) →
    bakeFold poseAt frames t = t ++ frames.map (fun f => (f, poseAt f)) := by
  induction frames with
  | nil => intro t _ _; simp [bakeFold]
  | cons f rest ih =>
    intro t hp hlt
    obtain ⟨hf, hrest⟩ := List.pairwise_cons.mp hp
    have h1 : insertKey t f (poseAt f) = t ++ [(f, poseAt f)] :=
      insertKey_append t f (poseAt f)
        (fun p hp' => hlt p hp' f (List.mem_cons_self _ _))
    have h2 : ∀ p ∈ t ++ [(f, poseAt f)], ∀ g ∈ rest, p.1 < g := by
      intro p hp' g hg
      rcases List.mem_append.mp hp' with h | h
      · exact hlt p h g (List.mem_cons_of_mem _ hg)
      · rw [List.mem_singleton.mp h]
        exact hf g hg
    calc bakeFold poseAt (f :: rest) t
        = bakeFold poseAt rest (insertKey t f (poseAt f)) := rfl
      _ = bakeFold poseAt rest (t ++ [(f, poseAt f)]) := by rw [h1]
      _ = (t ++ [(f, poseAt f)]) ++ rest.map (fun g => (g, poseAt g)) :=
          ih (t ++ [(f, poseAt f)]) hrest h2
      _ = t ++ (f :: rest).map (fun g => (g, poseAt g)) := by
          simp [List.append_assoc]

lemma bakeFold_nil (poseAt : Int → CameraKey) (frames : List Int)
    (hp : frames.Pairwise (· < ·)) :
    bakeFold poseAt frames [] = frames.map (fun f => (f, poseAt f)) := by
  simpa using bakeFold_append poseAt frames [] hp (by simp)

lemma trackFrames_bakeFold_of_subset (poseAt : Int → CameraKey)
    (frames : List Int) :
    ∀ t : Track, TrackSorted t → (∀ f ∈ frames, f ∈ trackFrames t) →
    trackFrames (bakeFold poseAt frames t) = trackFrames t := by
  induction frames with
  | nil => intro t _ _; rfl
  | cons f rest ih =>
    intro t hs hsub
    have hf : f ∈ trackFrames t := hsub f (List.mem_cons_self _ _)
    have h1 : trackFrames (insertKey t f (poseAt f)) = trackFrames t :=
      trackFrames_insertKey_of_mem t f (poseAt f) hs hf
    calc trackFrames (bakeFold poseAt (f :: rest) t)
        = trackFrames (bakeFold poseAt rest (insertKey t f (poseAt f))) := rfl
      _ = trackFrames (insertKey t f (poseAt f)) :=
          ih (insertKey t f (poseAt f)) (insertKey_sorted t f (poseAt f) hs)
            (fun g hg => h1 ▸ hsub g (List.mem_cons_of_mem _ hg))
      _ = trackFrames t := h1

/-! ## Concrete fixtures for witnesses and counterexamples -/

/-- A static non-armature target resting at the world origin. -/
def constTarget : SceneObject :=
  { objType := "EMPTY", matrixWorld := fun _ => Affine.id, poseBones := [] }

/-- The week2 adapter over `constTarget` with no bone. -/
def constAdapter : Week2.TargetAdapter := ⟨constTarget, none⟩

/-- A static target held at z = -10 (below the -2.5 clamp threshold). -/
def lowTarget : SceneObject :=
  { objType := "EMPTY"
    matrixWorld := fun _ => { Affine.id with t := ⟨0, 0, -10⟩ }
    poseBones := [] }

/-- The week2 adapter over `lowTarget` with no bone. -/
def lowAdapter : Week2.TargetAdapter := ⟨lowTarget, none⟩

/-- A pre-existing foreign keyframe at frame 0 (not on any bake grid). -/
def preKey : CameraKey := ⟨⟨0, 0, 0⟩, ⟨0, 0, 0⟩⟩

/-- A concrete initial render configuration state. -/
def scene0 : Scene :=
  { render :=
      { image_settings := { media_type := "IMAGE", file_format := "PNG" }
        ffmpeg :=
          { format := "AVI", codec := "NONE", constant_rate_factor := "NONE"
            ffmpeg_preset := "BEST", video_bitrate := 0, gopsize := 0
            audio_codec := "NONE", audio_bitrate := 0 }
        fps := 30
        fps_base := 1
        filepath := "/tmp/untitled"
        resolution_x := 1080
        resolution_y := 1920 }
    frame_start := 1
    frame_end := 250 }

/-! ## Claim theorems -/

/-- C2 (counterexample): baking frames 1 to 250 with step 5 does NOT sample
frame 250 — the loop `range(1, 250 + 1, 5)` stops at 246, and the baked
track of `setup_camera_tracking` has no key at frame 250. -/
theorem bake_skips_frame_end_counterexample :
    (250 : Int) ∉ sampledFrames 1 250 5
    ∧ (sampledFrames 1 250 5).getLast? = some 246
    ∧ (250 : Int) ∉ trackFrames (Project2.setup_camera_tracking [] constTarget none 1 250) := by
  refine ⟨by decide, by decide, by decide⟩

/-- C2 (amended): the bake loop samples `start, start + step, ...`; every
sample lies in `[start, end]`; the last (largest) sample is
`start + step * ((end - start) / step)`; and `frame_end` itself is sampled
exactly when `(frame_end - frame_start)` is a multiple of `step` — not
always, as the original claim stated. -/
theorem bake_sampling_grid (s e st : Int) (h1 : s ≤ e) (h2 : 1 ≤ st) :
    (∀ x ∈ sampledFrames s e st, s ≤ x ∧ x ≤ e)
    ∧ s + st * ((e - s) / st) ∈ sampledFrames s e st
    ∧ (∀ x ∈ sampledFrames s e st, x ≤ s + st * ((e - s) / st))
    ∧ (e ∈ sampledFrames s e st ↔ (e - s) % st = 0) := by
  refine ⟨?_, lastSample_mem s e st h1 h2, ?_, end_mem_sampledFrames_iff s e st h1 h2⟩
  · intro x hx
    have hb := sampledFrames_bounds s e st x h1 h2 hx
    have hle := lastSample_le_end s e st h1 h2
    exact ⟨hb.1, le_trans hb.2 hle⟩
  · intro x hx
    exact (sampledFrames_bounds s e st x h1 h2 hx).2

/-- C2 (witness for the amended theorem) at `(1, 250, 5)`: every sample lies
in `[1, 250]`, 246 is the largest sample, and 250 is not sampled because
`(250 - 1) % 5 ≠ 0`. -/
theorem bake_sampling_grid_witness :
    (∀ x ∈ sampledFrames 1 250 5, (1 : Int) ≤ x ∧ x ≤ 250)
    ∧ (1 : Int) + 5 * ((250 - 1) / 5) ∈ sampledFrames 1 250 5
    ∧ (∀ x ∈ sampledFrames 1 250 5, x ≤ 1 + 5 * ((250 - 1) / 5))
    ∧ ((250 : Int) ∈ sampledFrames 1 250 5 ↔ ((250 : Int) - 1) % 5 = 0) :=
  bake_sampling_grid 1 250 5 (by decide) (by decide)

/-- C3 (confirmed): for `frame_start ≤ frame_end` and `step ≥ 1`, a bake
invocation writes exactly `(frame_end - frame_start) / step + 1` keyframes
(floor division), one per loop iteration, whatever track the camera had
before. -/
theorem bake_sample_count (cam : Track) (target : SceneObject)
    (bn : Option String) (s e st : Int) (h1 : s ≤ e) (h2 : 1 ≤ st) :
    (Project2.setup_camera_tracking_gen cam target bn s e st).length
      = ((e - s) / st).toNat + 1 := by
  have hcl : (if cam ≠ [] then ([] : Track) else cam) = [] := by
    by_cases h : cam = [] <;> simp [h]
  show (bakeFold (Project2.bakePose target bn) (sampledFrames s e st)
      (if cam ≠ [] then [] else cam)).length = ((e - s) / st).toNat + 1
  rw [hcl, bakeFold_nil _ _ (sampledFrames_pairwise s e st h2), List.length_map,
    sampledFrames_length s e st h1 h2]

/-- C3 (witness): baking frames 1 to 250 with step 5 over a previously keyed
camera yields exactly 50 keyframes. -/
theorem bake_sample_count_witness :
    (Project2.setup_camera_tracking_gen [((0 : Int), preKey)] constTarget none 1 250 5).length
      = (((250 : Int) - 1) / 5).toNat + 1 :=
  bake_sample_count [((0 : Int), preKey)] constTarget none 1 250 5
    (by decide) (by decide)

/-- C4 (counterexample): with `frame_start = 10 > frame_end = 5` the bake
completes normally — it clears the existing animation, writes no keyframes
and returns an empty track; no `InvalidRangeError` exists anywhere in the
repository, and no exception is raised. -/
theorem bake_invalid_range_no_error_counterexample :
    Project2.setup_camera_tracking [((0 : Int), preKey)] constTarget none 10 5 = []
    ∧ sampledFrames 10 5 Project2.FRAME_STEP = [] := by
  refine ⟨by decide, by decide⟩

/-- C4 (amended): the bake performs no range validation; for any
`frame_start > frame_end` the loop body never runs and the call completes
normally with an empty track (prior animation cleared, nothing written).
`step` is the fixed module constant `FRAME_STEP = 5` and can never be
below 1. -/
theorem bake_invalid_range_completes_empty (cam : Track) (target : SceneObject)
    (bn : Option String) (s e st : Int) (h : e < s) (h2 : 1 ≤ st) :
    Project2.setup_camera_tracking_gen cam target bn s e st = [] := by
  have hframes : sampledFrames s e st = [] := by
    have hlen : ((e + 1 - s + st - 1) / st) < 1 :=
      (Int.ediv_lt_iff_lt_mul (by omega)).mpr (by omega)
    have : pyRangeLen s (e + 1) st = 0 := by
      unfold pyRangeLen
      omega
    rw [sampledFrames_eq_map, this]
    rfl
  have hcl : (if cam ≠ [] then ([] : Track) else cam) = [] := by
    by_cases hc : cam = [] <;> simp [hc]
  show bakeFold (Project2.bakePose target bn) (sampledFrames s e st)
      (if cam ≠ [] then [] else cam) = []
  rw [hframes, hcl]
  rfl

/-- C4 (witness for the amended theorem): the concrete invalid range
`frame_start = 10, frame_end = 5` satisfies the hypothesis and the call
returns the empty track. -/
theorem bake_invalid_range_completes_empty_witness :
    (5 : Int) < 10
    ∧ Project2.setup_camera_tracking_gen [((0 : Int), preKey)] constTarget none 10 5 5 = [] :=
  ⟨by decide, bake_invalid_range_completes_empty [((0 : Int), preKey)] constTarget none
    10 5 5 (by decide) (by decide)⟩

/-- C5 (counterexample): week2's `bake_camera_animation` does NOT clear the
pre-existing keyframe track before writing — a foreign key at frame 0
survives the bake, and the resulting track has 19 keys (the prior one plus
the 18 new samples), not the 18 of the bake alone. -/
theorem week2_bake_no_clear_counterexample :
    ((0 : Int), preKey) ∈ Week2.bake_camera_animation [((0 : Int), preKey)] constAdapter
    ∧ (Week2.bake_camera_animation [((0 : Int), preKey)] constAdapter).length = 19
    ∧ (Week2.bake_camera_animation [] constAdapter).length = 18 := by
  refine ⟨by decide, by decide, by decide⟩

/-- C5 (amended): project2's `setup_camera_tracking` clears any prior
animation, so its result is exactly this call's samples — running it twice
leaves the second call's track alone, never the sum.  Week2's
`bake_camera_animation` does not clear, but because `keyframe_insert`
replaces keys at existing frames and its range is the fixed constant
`1..180` step `10`, re-running it still leaves a track whose length equals
the second call's sample count. -/
theorem bake_replaces_track (cam : Track) (target : SceneObject)
    (bn : Option String) (s e st : Int) (h2 : 1 ≤ st)
    (adapter : Week2.TargetAdapter) :
    Project2.setup_camera_tracking_gen cam target bn s e st
      = (sampledFrames s e st).map (fun f => (f, Project2.bakePose target bn f))
    ∧ (Week2.bake_camera_animation (Week2.bake_camera_animation [] adapter) adapter).length
      = (Week2.bake_camera_animation [] adapter).length := by
  constructor
  · have hcl : (if cam ≠ [] then ([] : Track) else cam) = [] := by
      by_cases h : cam = [] <;> simp [h]
    show bakeFold (Project2.bakePose target bn) (sampledFrames s e st)
        (if cam ≠ [] then [] else cam)
      = (sampledFrames s e st).map (fun f => (f, Project2.bakePose target bn f))
    rw [hcl, bakeFold_nil _ _ (sampledFrames_pairwise s e st h2)]
  · have hpw : (sampledFrames Week2.FRAME_START Week2.FRAME_END Week2.STEP).Pairwise (· < ·) :=
      sampledFrames_pairwise _ _ _ (by decide)
    have ht1 : Week2.bake_camera_animation [] adapter
        = (sampledFrames Week2.FRAME_START Week2.FRAME_END Week2.STEP).map
            (fun f => (f, Week2.bakePose adapter f)) :=
      bakeFold_nil _ _ hpw
    have hfr : trackFrames (Week2.bake_camera_animation [] adapter)
        = sampledFrames Week2.FRAME_START Week2.FRAME_END Week2.STEP := by
      rw [ht1]
      show List.map Prod.fst (List.map (fun f => (f, Week2.bakePose adapter f))
        (sampledFrames Week2.FRAME_START Week2.FRAME_END Week2.STEP)) = _
      rw [List.map_map]
      exact List.map_id _
    have hsorted : TrackSorted (Week2.bake_camera_animation [] adapter) := by
      rw [ht1]
      unfold TrackSorted
      rw [List.pairwise_map]
      exact hpw
    have hmain : trackFrames (Week2.bake_camera_animation
          (Week2.bake_camera_animation [] adapter) adapter)
        = trackFrames (Week2.bake_camera_animation [] adapter) := by
      show trackFrames (bakeFold (Week2.bakePose adapter)
          (sampledFrames Week2.FRAME_START Week2.FRAME_END Week2.STEP)
          (Week2.bake_camera_animation [] adapter)) = _
      exact trackFrames_bakeFold_of_subset _ _ _ hsorted
        (fun f hf => by rw [hfr]; exact hf)
    have hlen : ∀ t : Track, t.length = (trackFrames t).length := by
      intro t
      simp [trackFrames]
    rw [hlen (Week2.bake_camera_animation (Week2.bake_camera_animation [] adapter) adapter),
      hlen (Week2.bake_camera_animation [] adapter), hmain]

/-- C5 (witness for the amended theorem): a concrete second bake over an
already-baked camera — project2's result is exactly the sample list, and
week2's double bake keeps the single-bake length. -/
theorem bake_replaces_track_witness :
    Project2.setup_camera_tracking_gen [((0 : Int), preKey)] constTarget none 1 250 5
      = (sampledFrames 1 250 5).map (fun f => (f, Project2.bakePose constTarget none f))
    ∧ (Week2.bake_camera_animation (Week2.bake_camera_animation [] constAdapter) constAdapter).length
      = (Week2.bake_camera_animation [] constAdapter).length :=
  bake_replaces_track [((0 : Int), preKey)] constTarget none 1 250 5
    (by decide) constAdapter

/-- C6 (confirmed): resolving a joint target whose bone is absent from the
rig degrades to the owning node's world position, in both scripts: project2's
`get_target_world_location` falls back to `armature.matrix_world.translation`,
and week2's `TargetAdapter.world_location` with a missing bone equals the
bone-less (object) adapter's resolution at every frame.  Resolution is a pure
function of the frame-evaluated state, so repeated resolution at the same
frame trivially returns the same value. -/
theorem missing_joint_falls_back_to_object (obj : SceneObject) (bn : String)
    (frame : Int) (hmiss : obj.findBone bn = none) :
    Project2.get_target_world_location obj bn frame = obj.worldTranslation frame
    ∧ Week2.TargetAdapter.world_location ⟨obj, some bn⟩ frame
      = Week2.TargetAdapter.world_location ⟨obj, none⟩ frame := by
  constructor
  · unfold Project2.get_target_world_location
    rw [hmiss]
    rfl
  · unfold Week2.TargetAdapter.world_location
    simp only [Option.some_bind, hmiss, Week2.optTruthy]
    by_cases h : obj.objType = "ARMATURE" ∧ (decide ¬bn = "") = true
    · rw [if_pos h]
      simp [Week2.optTruthy]
    · rw [if_neg h]
      simp [Week2.optTruthy]

/-- C6 (witness): a concrete rig with no bones — resolving the missing bone
"mixamorig:Hips" at frame 7 equals the object resolution. -/
theorem missing_joint_falls_back_to_object_witness :
    Project2.get_target_world_location constTarget "mixamorig:Hips" 7
      = constTarget.worldTranslation 7
    ∧ Week2.TargetAdapter.world_location ⟨constTarget, some "mixamorig:Hips"⟩ 7
      = Week2.TargetAdapter.world_location ⟨constTarget, none⟩ 7 :=
  missing_joint_falls_back_to_object constTarget "mixamorig:Hips" 7 rfl

/-- `quality_settings "medium"` evaluates to the medium preset. -/
lemma quality_settings_medium :
    Project2.quality_settings "medium" = some (4000, 15) := rfl

/-- C7 (confirmed): an export call with any unrecognized quality string is
coerced to "medium" and behaves identically — same applied settings, same
post-state, same result — as the identical call with quality "medium", for
every output path, frame rate, frame range and encode outcome. -/
theorem unknown_quality_coerced_to_medium (scene : Scene) (rp : String → String)
    (outcome : EncodeOutcome) (path : String) (fps : Int) (q : String)
    (fs0 fe0 : Option Int) (hq : Project2.quality_settings q = none) :
    Project2.render_to_mp4 scene rp outcome path fps q fs0 fe0
      = Project2.render_to_mp4 scene rp outcome path fps "medium" fs0 fe0 := by
  simp [Project2.render_to_mp4, hq, quality_settings_medium]

/-- C7 (witness): `quality="bogus"` concretely matches `quality="medium"`. -/
theorem unknown_quality_coerced_to_medium_witness :
    Project2.render_to_mp4 scene0 id (EncodeOutcome.ok true 100) "clip.mp4" 24
        "bogus" (some 1) (some 100)
      = Project2.render_to_mp4 scene0 id (EncodeOutcome.ok true 100) "clip.mp4" 24
        "medium" (some 1) (some 100) :=
  unknown_quality_coerced_to_medium scene0 id (EncodeOutcome.ok true 100)
    "clip.mp4" 24 "bogus" (some 1) (some 100) (by decide)

/-- C1 (counterexample): the export does not restore every field it mutated.
A concrete successful encode leaves `scene.render.fps` at the call's value 24
instead of the pre-call 30 (likewise the FFmpeg codec settings), so the
post-call configuration differs from the pre-call one. -/
theorem render_restore_not_full_counterexample :
    (Project2.render_to_mp4 scene0 id (EncodeOutcome.ok true 100) "clip.mp4" 24
        "high" (some 1) (some 100)).2 ≠ scene0
    ∧ (Project2.render_to_mp4 scene0 id (EncodeOutcome.ok true 100) "clip.mp4" 24
        "high" (some 1) (some 100)).2.render.fps = 24
    ∧ scene0.render.fps = 30
    ∧ (Project2.render_to_mp4 scene0 id (EncodeOutcome.ok true 100) "clip.mp4" 24
        "high" (some 1) (some 100)).2.render.ffmpeg.codec = "H264"
    ∧ scene0.render.ffmpeg.codec = "NONE" := by
  refine ⟨by decide, by decide, by decide, by decide, by decide⟩

/-- C1 (amended): on every exit path (encode success or failure) the export
restores exactly the five fields it snapshotted — `media_type`,
`file_format`, `filepath`, `frame_start` and `frame_end` — to their pre-call
values; the other mutated fields (FFmpeg codec settings, fps, fps_base)
retain their overridden values. -/
theorem render_restores_snapshotted_fields (scene : Scene) (rp : String → String)
    (outcome : EncodeOutcome) (path : String) (fps : Int) (q : String)
    (fs0 fe0 : Option Int) :
    (Project2.render_to_mp4 scene rp outcome path fps q fs0 fe0).2.render.image_settings.media_type
      = scene.render.image_settings.media_type
    ∧ (Project2.render_to_mp4 scene rp outcome path fps q fs0 fe0).2.render.image_settings.file_format
      = scene.render.image_settings.file_format
    ∧ (Project2.render_to_mp4 scene rp outcome path fps q fs0 fe0).2.render.filepath
      = scene.render.filepath
    ∧ (Project2.render_to_mp4 scene rp outcome path fps q fs0 fe0).2.frame_start
      = scene.frame_start
    ∧ (Project2.render_to_mp4 scene rp outcome path fps q fs0 fe0).2.frame_end
      = scene.frame_end := by
  cases outcome <;>
    exact ⟨rfl, rfl, rfl, rfl, rfl⟩

/-- C9 (counterexample): an export whose encode completes without raising
but leaves no file on disk still returns success — the result is `ok` with
`fileFound = false` and no size/duration reported, contradicting "on
successful export, the output file exists and is non-empty". -/
theorem export_success_without_file_counterexample :
    (Project2.render_to_mp4 scene0 id (EncodeOutcome.ok false 0) "clip.mp4" 24
        "low" (some 1) (some 100)).1
      = Except.ok
          { returnedPath := "clip.mp4", fileFound := false, shownFileSize := none
            shownResolution := none, shownFps := none, shownDuration := none } := by
  rfl

/-- C9 (amended): when the encode completes and the output file exists, the
export succeeds and reports duration `(frame_end - frame_start + 1) / fps`
(with the frame range resolved against the scene's when absent), along with
the file size, resolution and frame rate; the code never checks that the
file is non-empty, and a missing file yields only a warning, not a failure.
In particular frames 1..100 at 24 fps report `100/24 = 25/6 ≈ 4.17` s. -/
theorem export_report_duration (scene : Scene) (rp : String → String)
    (size : Nat) (path : String) (fps : Int) (q : String)
    (fs0 fe0 : Option Int) :
    (Project2.render_to_mp4 scene rp (EncodeOutcome.ok true size) path fps q fs0 fe0).1
      = Except.ok
          { returnedPath := rp path
            fileFound := true
            shownFileSize := some size
            shownResolution := some (scene.render.resolution_x, scene.render.resolution_y)
            shownFps := some fps
            shownDuration := some
              ((((fe0.getD scene.frame_end : Int) : ℚ)
                - ((fs0.getD scene.frame_start : Int) : ℚ) + 1) / (fps : ℚ)) }
    ∧ ((100 : ℚ) - 1 + 1) / 24 = 25 / 6
    ∧ round ((25 / 6 : ℚ) * 100) = 417 := by
  refine ⟨?_, by norm_num, by norm_num [round_eq]⟩
  simp [Project2.render_to_mp4]

/-- C10 (confirmed): every keyframe the week2 bake writes places the camera
at height `max(target_z + 3.0, 0.5)`, so the camera never drops below 0.5;
whenever the target's z falls below -2.5 the clamp takes over and the fixed
height-offset policy `target_z + 3.0` is abandoned. -/
theorem week2_camera_height_clamped (adapter : Week2.TargetAdapter) (f : Int)
    (k : CameraKey)
    (h : (f, k) ∈ Week2.bake_camera_animation [] adapter) :
    k.loc.z = max ((adapter.world_location f).z + Week2.Z_OFFSET) (1 / 2)
    ∧ (1 / 2 : ℚ) ≤ k.loc.z
    ∧ ((adapter.world_location f).z < -(5 / 2) →
        k.loc.z = 1 / 2
        ∧ k.loc.z ≠ (adapter.world_location f).z + Week2.Z_OFFSET) := by
  have hpw : (sampledFrames Week2.FRAME_START Week2.FRAME_END Week2.STEP).Pairwise (· < ·) :=
    sampledFrames_pairwise _ _ _ (by decide)
  rw [show Week2.bake_camera_animation [] adapter
      = bakeFold (Week2.bakePose adapter)
          (sampledFrames Week2.FRAME_START Week2.FRAME_END Week2.STEP) [] from rfl,
    bakeFold_nil _ _ hpw] at h
  obtain ⟨fr, hmem, heq⟩ := List.mem_map.mp h
  cases heq
  refine ⟨rfl, le_max_right _ _, ?_⟩
  intro hlow
  have h3 : Week2.Z_OFFSET = 3 := rfl
  have hle : (adapter.world_location f).z + Week2.Z_OFFSET ≤ 1 / 2 := by
    rw [h3]
    linarith
  show max ((adapter.world_location f).z + Week2.Z_OFFSET) (1 / 2) = 1 / 2
    ∧ max ((adapter.world_location f).z + Week2.Z_OFFSET) (1 / 2)
      ≠ (adapter.world_location f).z + Week2.Z_OFFSET
  refine ⟨max_eq_right hle, ?_⟩
  rw [max_eq_right hle, h3]
  intro hcontra
  rw [h3] at hle
  linarith [hcontra]

/-- C10 (witness): with the target held at z = -10, the key baked at frame 1
keeps the camera at the clamp height 1/2 and off the `target_z + 3` policy. -/
theorem week2_camera_height_clamped_witness :
    ((1 : Int), Week2.bakePose lowAdapter 1)
        ∈ Week2.bake_camera_animation [] lowAdapter
    ∧ (Week2.bakePose lowAdapter 1).loc.z
        = max ((lowAdapter.world_location 1).z + Week2.Z_OFFSET) (1 / 2)
    ∧ (1 / 2 : ℚ) ≤ (Week2.bakePose lowAdapter 1).loc.z
    ∧ ((lowAdapter.world_location 1).z < -(5 / 2) →
        (Week2.bakePose lowAdapter 1).loc.z = 1 / 2
        ∧ (Week2.bakePose lowAdapter 1).loc.z
          ≠ (lowAdapter.world_location 1).z + Week2.Z_OFFSET) := by
  have hpw : (sampledFrames Week2.FRAME_START Week2.FRAME_END Week2.STEP).Pairwise (· < ·) :=
    sampledFrames_pairwise _ _ _ (by decide)
  have hmem : ((1 : Int), Week2.bakePose lowAdapter 1)
      ∈ Week2.bake_camera_animation [] lowAdapter := by
    rw [show Week2.bake_camera_animation [] lowAdapter
        = bakeFold (Week2.bakePose lowAdapter)
            (sampledFrames Week2.FRAME_START Week2.FRAME_END Week2.STEP) [] from rfl,
      bakeFold_nil _ _ hpw]
    exact List.mem_map.mpr ⟨1, by decide, rfl⟩
  exact ⟨hmem, week2_camera_height_clamped lowAdapter 1 _ hmem⟩

/-- C8 (confirmed, solver modelled from the spec): for every camera/target
pair with nonzero separation, the orientation produced by the look-at call
carries the camera's local forward axis `-Z` onto a positive multiple of
`(target - camera)` — i.e. the forward axis is parallel to the normalized
direction vector, with `+Y` resolving roll. -/
theorem look_at_forward_parallel (camera_location target : Vec3R)
    (hne : target.sub camera_location ≠ ⟨0, 0, 0⟩) :
    ∃ c : ℝ, 0 < c ∧
      (Week2.point_camera camera_location target).forward
        = Vec3R.smul c (target.sub camera_location) := by
  set d := target.sub camera_location with hd
  have hcomp : d.x ≠ 0 ∨ d.y ≠ 0 ∨ d.z ≠ 0 := by
    by_contra hall
    push_neg at hall
    obtain ⟨h1, h2, h3⟩ := hall
    apply hne
    rw [show d = Vec3R.mk d.x d.y d.z from rfl, h1, h2, h3]
  have hpos : 0 < d.x ^ 2 + d.y ^ 2 + d.z ^ 2 := by
    rcases hcomp with hx | hy | hz
    · have : 0 < d.x ^ 2 := by positivity
      nlinarith [sq_nonneg d.y, sq_nonneg d.z]
    · have : 0 < d.y ^ 2 := by positivity
      nlinarith [sq_nonneg d.x, sq_nonneg d.z]
    · have : 0 < d.z ^ 2 := by positivity
      nlinarith [sq_nonneg d.x, sq_nonneg d.y]
  have hnorm : 0 < d.norm := Real.sqrt_pos.mpr hpos
  refine ⟨(d.norm)⁻¹, inv_pos.mpr hnorm, ?_⟩
  show (to_track_quat_negZ_Y d).forward = Vec3R.smul (d.norm)⁻¹ d
  simp only [to_track_quat_negZ_Y, RotFrame.forward, Vec3R.normalize, Vec3R.smul,
    Vec3R.mk.injEq]
  refine ⟨by ring, by ring, by ring⟩

/-- C8 (witness): camera at the origin looking at `(0, 1, 0)` — the forward
axis is a positive multiple of the direction. -/
theorem look_at_forward_parallel_witness :
    (Vec3R.mk 0 1 0).sub ⟨0, 0, 0⟩ ≠ ⟨0, 0, 0⟩
    ∧ ∃ c : ℝ, 0 < c ∧
        (Week2.point_camera ⟨0, 0, 0⟩ ⟨0, 1, 0⟩).forward
          = Vec3R.smul c ((Vec3R.mk 0 1 0).sub ⟨0, 0, 0⟩) := by
  have hne : (Vec3R.mk 0 1 0).sub ⟨0, 0, 0⟩ ≠ ⟨0, 0, 0⟩ := by
    simp [Vec3R.sub]
  exact ⟨hne, look_at_forward_parallel ⟨0, 0, 0⟩ ⟨0, 1, 0⟩ hne⟩
